import Mathlib

/-!
Shallow embedding of the core of the Servare feed-reader service
(job queue, job runner, feed ingestion, favicon discovery, run group),
together with theorems settling the specification claims about it.

Pure functions of the source are translated directly; database tables are
modelled as lists of rows and SQL statements as list transformations;
fallible operations return `Except` / `Option`.
-/

set_option maxRecDepth 100000

namespace Servare

/-! ## 64-bit arithmetic helpers (machine integers as `Nat` mod `2^64`) -/

def M64 : Nat := 18446744073709551616

def add64 (a b : Nat) : Nat := (a + b) % M64

def xor64 (a b : Nat) : Nat := Nat.xor a b

def rotr64 (x r : Nat) : Nat :=
  Nat.lor (Nat.shiftRight x r) ((Nat.shiftLeft x (64 - r)) % M64)

/-- Little-endian byte encoding of `x` on `n` bytes (Rust `to_le_bytes`). -/
def leBytes : Nat → Nat → List Nat
  | 0, _ => []
  | n + 1, x => (x % 256) :: leBytes n (x / 256)

/-- Value of a little-endian byte list (left inverse of `leBytes`). -/
def leValue : List Nat → Nat
  | [] => 0
  | b :: bs => b + 256 * leValue bs

/-- ASCII bytes of a string (all tags used by the jobs are ASCII). -/
def strBytes (s : String) : List Nat := s.toList.map Char.toNat

/-! ## BLAKE2b-512 (RFC 7693), as used by the `blake2` crate in `Job::key` -/

def blakeIV : List Nat :=
  [0x6a09e667f3bcc908, 0xbb67ae8584caa73b, 0x3c6ef372fe94f82b,
   0xa54ff53a5f1d36f1, 0x510e527fade682d1, 0x9b05688c2b3e6c1f,
   0x1f83d9abfb41bd6b, 0x5be0cd19137e2179]

def blakeSigma : List (List Nat) :=
  [[0, 1, 2, 3, 4, 5, 6, 7, 8, 9, 10, 11, 12, 13, 14, 15],
   [14, 10, 4, 8, 9, 15, 13, 6, 1, 12, 0, 2, 11, 7, 5, 3],
   [11, 8, 12, 0, 5, 2, 15, 13, 10, 14, 3, 6, 7, 1, 9, 4],
   [7, 9, 3, 1, 13, 12, 11, 14, 2, 6, 5, 10, 4, 0, 15, 8],
   [9, 0, 5, 7, 2, 4, 10, 15, 14, 1, 11, 12, 6, 8, 3, 13],
   [2, 12, 6, 10, 0, 11, 8, 3, 4, 13, 7, 5, 15, 14, 1, 9],
   [12, 5, 1, 15, 14, 13, 4, 10, 0, 7, 6, 3, 9, 2, 8, 11],
   [13, 11, 7, 14, 12, 1, 3, 9, 5, 0, 15, 4, 8, 6, 2, 10],
   [6, 15, 14, 9, 11, 3, 0, 8, 12, 2, 13, 7, 1, 4, 10, 5],
   [10, 2, 8, 4, 7, 6, 1, 5, 15, 11, 9, 14, 3, 12, 13, 0],
   [0, 1, 2, 3, 4, 5, 6, 7, 8, 9, 10, 11, 12, 13, 14, 15],
   [14, 10, 4, 8, 9, 15, 13, 6, 1, 12, 0, 2, 11, 7, 5, 3]]

def lget (v : List Nat) (i : Nat) : Nat := v.getD i 0

/-- Mixing function G of BLAKE2b. -/
def gmix (v : List Nat) (a b c d x y : Nat) : List Nat :=
  let va := add64 (add64 (lget v a) (lget v b)) x
  let vd := rotr64 (xor64 (lget v d) va) 32
  let vc := add64 (lget v c) vd
  let vb := rotr64 (xor64 (lget v b) vc) 24
  let va2 := add64 (add64 va vb) y
  let vd2 := rotr64 (xor64 vd va2) 16
  let vc2 := add64 vc vd2
  let vb2 := rotr64 (xor64 vb vc2) 63
  (((v.set a va2).set b vb2).set c vc2).set d vd2

/-- One round of the BLAKE2b compression function, with message schedule `s`. -/
def mixRound (m : List Nat) (v : List Nat) (s : List Nat) : List Nat :=
  let v1 := gmix v 0 4 8 12 (lget m (lget s 0)) (lget m (lget s 1))
  let v2 := gmix v1 1 5 9 13 (lget m (lget s 2)) (lget m (lget s 3))
  let v3 := gmix v2 2 6 10 14 (lget m (lget s 4)) (lget m (lget s 5))
  let v4 := gmix v3 3 7 11 15 (lget m (lget s 6)) (lget m (lget s 7))
  let v5 := gmix v4 0 5 10 15 (lget m (lget s 8)) (lget m (lget s 9))
  let v6 := gmix v5 1 6 11 12 (lget m (lget s 10)) (lget m (lget s 11))
  let v7 := gmix v6 2 7 8 13 (lget m (lget s 12)) (lget m (lget s 13))
  gmix v7 3 4 9 14 (lget m (lget s 14)) (lget m (lget s 15))

/-- Little-endian 64-bit word at byte offset `off` of a block (zero padded). -/
def word64At (bytes : List Nat) (off : Nat) : Nat :=
  (List.range 8).foldl (fun acc j => acc + bytes.getD (off + j) 0 * 256 ^ j) 0

def blockWords (bytes : List Nat) : List Nat :=
  (List.range 16).map (fun i => word64At bytes (8 * i))

/-- Compression function F of BLAKE2b: `t` is the byte offset counter and
`f` the final-block flag. -/
def compress (h : List Nat) (block : List Nat) (t : Nat) (f : Bool) : List Nat :=
  let m := blockWords block
  let v0 := h ++ blakeIV
  let v1 := v0.set 12 (xor64 (lget v0 12) (t % M64))
  let v2 := v1.set 13 (xor64 (lget v1 13) (t / M64 % M64))
  let v3 := if f then v2.set 14 (xor64 (lget v2 14) (M64 - 1)) else v2
  let vf := blakeSigma.foldl (mixRound m) v3
  (List.range 8).map (fun i => xor64 (xor64 (lget h i) (lget vf i)) (lget vf (i + 8)))

/-- Process the message in 128-byte blocks; the last (possibly short or empty)
block is compressed with the final flag set. The structural `fuel` argument
(instantiated with the message length, which bounds the number of blocks)
keeps the recursion kernel-reducible. -/
def blake2bLoop : Nat → List Nat → List Nat → Nat → List Nat
  | 0, h, msg, done => compress h msg (done + msg.length) true
  | fuel + 1, h, msg, done =>
    if msg.length ≤ 128 then
      compress h msg (done + msg.length) true
    else
      blake2bLoop fuel (compress h (msg.take 128) (done + 128) false) (msg.drop 128) (done + 128)

/-- BLAKE2b-512 digest (no key): 64 output bytes. -/
def blake2b512 (msg : List Nat) : List Nat :=
  let h0 := blakeIV.set 0 (xor64 (lget blakeIV 0) 0x01010040)
  let hf := blake2bLoop msg.length h0 msg 0
  (hf.map (leBytes 8)).flatten

/-- Sanity check of the embedding of BLAKE2b-512 against the reference test
vector of RFC 7693, appendix A (the digest of the ASCII string "abc"). -/
theorem blake2b512_abc_vector :
    blake2b512 (strBytes "abc") =
      [0xBA, 0x80, 0xA5, 0x3F, 0x98, 0x1C, 0x4D, 0x0D,
       0x6A, 0x27, 0x97, 0xB6, 0x9F, 0x12, 0xF6, 0xE9,
       0x4C, 0x21, 0x2F, 0x14, 0x68, 0x5A, 0xC4, 0xB7,
       0x4B, 0x12, 0xBB, 0x6F, 0xDB, 0xFF, 0xA2, 0xD1,
       0x7D, 0x87, 0xC5, 0x39, 0x2A, 0xAB, 0x79, 0x2D,
       0xC2, 0x52, 0xD5, 0xDE, 0x45, 0x33, 0xCC, 0x95,
       0x18, 0xD3, 0x8A, 0xA8, 0xDB, 0xF1, 0x92, 0x5A,
       0xB9, 0x23, 0x86, 0xED, 0xD4, 0x00, 0x99, 0x23] := by
  decide

/-! ## Job payloads and fingerprints (src/job.rs) -/

/-- Opaque 128-bit user id (a uuid); it is never part of the fingerprint. -/
structure UserId where
  val : Nat
deriving DecidableEq

/-- Payload of a FetchFavicon job (src/job.rs). -/
structure FetchFaviconJobData where
  user_id : UserId
  feed_id : Int
  site_link : String
deriving DecidableEq

/-- Payload of a RefreshFeed job (src/job.rs). -/
structure RefreshFeedJobData where
  user_id : UserId
  feed_id : Int
  feed_url : String
deriving DecidableEq

/-- The tagged union of job payloads (src/job.rs `enum Job`). -/
inductive Job where
  | FetchFavicon (data : FetchFaviconJobData)
  | RefreshFeed (data : RefreshFeedJobData)
deriving DecidableEq

/-- ASCII tag of a job type, as absorbed into the hasher by `Job::key`. -/
def Job.tag : Job → String
  | .FetchFavicon _ => "fetch_favicon"
  | .RefreshFeed _ => "refresh_feed"

/-- Identifying field of both current job types. -/
def Job.feedId : Job → Int
  | .FetchFavicon d => d.feed_id
  | .RefreshFeed d => d.feed_id

/-- Rust `i64::to_le_bytes` (`impl From<FeedId> for [u8; 8]` in src/lib.rs):
the two's-complement little-endian 8-byte encoding. -/
def i64LeBytes (i : Int) : List Nat := leBytes 8 (i % (2 ^ 64)).toNat

/-- Range of the Rust `i64` type, which `FeedId` wraps. -/
def i64Range (i : Int) : Prop := -(2 ^ 63) ≤ i ∧ i < 2 ^ 63

/-- Byte stream absorbed by the hasher in `Job::key`: the ASCII tag followed
by the little-endian feed id bytes. -/
def Job.keyInput (j : Job) : List Nat := strBytes j.tag ++ i64LeBytes j.feedId

/-- Job::key (src/job.rs): a Blake2b512 hash over the tag and the le bytes of
the feed id of the payload. -/
def Job.key (j : Job) : List Nat :=
  match j with
  | .FetchFavicon d => blake2b512 (strBytes "fetch_favicon" ++ i64LeBytes d.feed_id)
  | .RefreshFeed d => blake2b512 (strBytes "refresh_feed" ++ i64LeBytes d.feed_id)

/-- Two job payloads describe the same work: same type tag, same feed id. -/
def Job.sameWork (j1 j2 : Job) : Prop := j1.tag = j2.tag ∧ j1.feedId = j2.feedId

/-! ## The jobs table and idempotent enqueue (src/job.rs `post_job`) -/

/-- Row of the `jobs` table as touched by `post_job`. -/
structure JobStoreRow where
  id : Nat
  key : List Nat
  data : Job
deriving DecidableEq

/-- The `jobs` table. Invariants of the schema: `id` is the primary key and
`key` (the fingerprint) carries a unique index. -/
structure JobsTable where
  rows : List JobStoreRow
deriving DecidableEq

/-- post_job (src/job.rs): INSERT INTO jobs(id, key, data) VALUES($1,$2,$3)
ON CONFLICT DO NOTHING. The row is inserted unless a row with the same
unique fingerprint (or the same primary key id) already exists; in either
case the generated `JobId` is returned successfully. -/
def post_job (t : JobsTable) (job_id : Nat) (job : Job) : JobsTable × Nat :=
  if t.rows.any (fun r => r.key == job.key || r.id == job_id) then (t, job_id)
  else ({ rows := t.rows ++ [⟨job_id, job.key, job⟩] }, job_id)

/-- Number of rows of the jobs table carrying the fingerprint `k`. -/
def fingerprintCount (t : JobsTable) (k : List Nat) : Nat :=
  (t.rows.filter (fun r => r.key == k)).length

/-! ## The job runner's Run phase (src/job.rs `JobRunner::run_jobs`) -/

/-- Status column of the `jobs` table; successful jobs are deleted instead. -/
inductive JobStatus where
  | pending
  | failed
deriving DecidableEq

/-- Row of the `jobs` table as claimed by the runner. The stored JSON payload
is modelled by the job it decodes to (`some`), or `none` for a payload on
which `serde_json::from_value` fails (unknown tag or malformed data). -/
structure RunnerRow where
  id : Nat
  data : Option Job
  status : JobStatus
  attempts : Nat
deriving DecidableEq

/-- The `jobs` table as seen by the runner. -/
structure RunnerDb where
  rows : List RunnerRow
deriving DecidableEq

/-- Hardcoded retry budget in `run_jobs` (src/job.rs). -/
def MAX_JOBS_ATTEMPTS : Nat := 5

/-- Hardcoded per-tick limit on jobs run in one tick (src/job.rs). -/
def RUN_JOBS_LIMIT : Nat := 1

/-- SELECT ... WHERE status = 'pending' FOR UPDATE SKIP LOCKED LIMIT 1:
with a single worker no rows are lock-skipped, so the claimed batch is the
first pending rows up to the limit. -/
def claimPending (db : RunnerDb) : List RunnerRow :=
  (db.rows.filter (fun r => r.status == JobStatus.pending)).take RUN_JOBS_LIMIT

/-- UPDATE jobs SET status = 'failed' WHERE id = $1. -/
def markFailed (db : RunnerDb) (id : Nat) : RunnerDb :=
  ⟨db.rows.map (fun r => if r.id == id then { r with status := JobStatus.failed } else r)⟩

/-- UPDATE jobs SET attempts = attempts + 1 WHERE id = $1. -/
def incrementAttempts (db : RunnerDb) (id : Nat) : RunnerDb :=
  ⟨db.rows.map (fun r => if r.id == id then { r with attempts := r.attempts + 1 } else r)⟩

/-- DELETE FROM jobs WHERE id = $1. -/
def deleteJob (db : RunnerDb) (id : Nat) : RunnerDb :=
  ⟨db.rows.filter (fun r => !(r.id == id))⟩

/-- The per-record loop of `run_jobs`. The handler is abstracted by the
predicate `handler` telling whether a decoded job's handler succeeds. The
second component of the result collects the dispatched jobs in order. A
payload decode failure is propagated by `?` out of the whole loop. -/
def processClaimed (handler : Job → Bool) :
    RunnerDb → List RunnerRow → List Job → Except Unit (RunnerDb × List Job)
  | db, [], log => .ok (db, log)
  | db, record :: rest, log =>
    if record.attempts ≥ MAX_JOBS_ATTEMPTS then
      processClaimed handler (markFailed db record.id) rest log
    else
      match record.data with
      | none => .error ()
      | some job =>
        if handler job then
          processClaimed handler (deleteJob db record.id) rest (log ++ [job])
        else
          processClaimed handler (incrementAttempts db record.id) rest (log ++ [job])

/-- run_jobs (src/job.rs): claim up to `RUN_JOBS_LIMIT` pending rows and
process them inside one transaction. When a decode error propagates, the
transaction is dropped without commit, so the caller observes an error and
an unchanged table. -/
def run_jobs (handler : Job → Bool) (db : RunnerDb) : Except Unit (RunnerDb × List Job) :=
  processClaimed handler db (claimPending db) []

/-- One tick of the Run phase as driven by `JobRunner::run`: an error from
`run_jobs` is only logged, leaving the table as it was. -/
def runnerTick (handler : Job → Bool) (db : RunnerDb) : RunnerDb × List Job :=
  match run_jobs handler db with
  | .ok r => r
  | .error _ => (db, [])

/-- Iterated ticks of the Run phase, accumulating the dispatched jobs. -/
def runnerTicks (handler : Job → Bool) : Nat → RunnerDb → RunnerDb × List Job
  | 0, db => (db, [])
  | n + 1, db =>
    let t := runnerTick handler db
    let rest := runnerTicks handler n t.1
    (rest.1, t.2 ++ rest.2)

/-! ## Feed entry persistence (src/job.rs) -/

/-- Row of the `feeds` table (the columns the ingestion path reads). -/
structure FeedRow where
  id : Int
  user_id : Nat
  url : String
deriving DecidableEq

/-- Row of the `feed_entries` table. -/
structure FeedEntryRow where
  feed_id : Int
  external_id : String
  title : String
  url : Option String
  authors : List String
  summary : String
deriving DecidableEq

/-- The slice of the relational database used by the ingestion path. -/
structure FeedsDb where
  users : List Nat
  feeds : List FeedRow
  entries : List FeedEntryRow
deriving DecidableEq

/-- Entry data parsed from a raw feed entry (src/job.rs `ParsedFeedEntry`). -/
structure ParsedFeedEntry where
  external_id : String
  url : Option String
  title : String
  summary : String
  authors : List String
deriving DecidableEq

/-- insert_feed_entry (src/job.rs): a bare INSERT INTO feed_entries with no
ON CONFLICT clause, returning unit on success. Modelled from the spec: the
`(feed_id, external_id)` uniqueness invariant of the `feed_entries` table
(its schema migration is not under src/), so inserting a duplicate surfaces
as a uniqueness-violation SQL error. -/
def insert_feed_entry (db : FeedsDb) (feed_id : Int) (entry : ParsedFeedEntry) :
    Except Unit FeedsDb :=
  if db.entries.any (fun e => e.feed_id == feed_id && e.external_id == entry.external_id) then
    .error ()
  else
    .ok { db with
          entries := db.entries ++
            [⟨feed_id, entry.external_id, entry.title, entry.url, entry.authors, entry.summary⟩] }

/-- feed_entry_with_external_id_exists (src/job.rs): SELECT fe.id FROM
feed_entries fe INNER JOIN feeds f ON f.id = fe.feed_id INNER JOIN users u
ON f.user_id = u.id WHERE u.id = $1 AND fe.external_id = $2. -/
def feed_entry_with_external_id_exists (db : FeedsDb) (user_id : Nat)
    (external_id : String) : Bool :=
  db.entries.any (fun fe =>
    db.feeds.any (fun f =>
      f.id == fe.feed_id && db.users.any (fun u => u == f.user_id && u == user_id)) &&
    fe.external_id == external_id)

/-- Entry-processing loop of run_refresh_feed_job (src/job.rs): skip an entry
when a feed entry with the same external id already exists for this user,
otherwise insert it into the refreshed feed; insertion errors propagate. -/
def processEntries (user_id : Nat) (feed_id : Int) :
    FeedsDb → List ParsedFeedEntry → Except Unit FeedsDb
  | db, [] => .ok db
  | db, e :: rest =>
    if feed_entry_with_external_id_exists db user_id e.external_id then
      processEntries user_id feed_id db rest
    else
      match insert_feed_entry db feed_id e with
      | .error err => .error err
      | .ok db2 => processEntries user_id feed_id db2 rest

/-! ## Feed parsing (src/feed.rs `ParsedFeed::from_raw_feed`) -/

/-- Link of a parsed raw feed (the fields of `feed_rs::model::Link` that
`from_raw_feed` reads). -/
structure RawLink where
  href : String
  rel : Option String
deriving DecidableEq

/-- Raw parsed feed (the fields of `feed_rs::model::Feed` that
`from_raw_feed` reads); the physical order of `<title>`, `<description>` and
`<link>` elements in the source document is already gone at this level. -/
structure RawFeedModel where
  title : Option String
  description : Option String
  links : List RawLink
deriving DecidableEq

/-- Parsed feed produced by `from_raw_feed` (src/feed.rs `ParsedFeed`). -/
structure ParsedFeedModel where
  url : String
  title : String
  site_link : String
  description : String
deriving DecidableEq

/-- from_raw_feed (src/feed.rs): keep the links without a `rel` attribute,
take their hrefs, and call `Vec::remove(0)` on the result. `remove(0)` on an
empty vector panics; the panic is modelled as `none`. -/
def from_raw_feed (url : String) (feed : RawFeedModel) : Option ParsedFeedModel :=
  match (feed.links.filter (fun l => l.rel.isNone)).map (fun l => l.href) with
  | [] => none
  | x :: _ =>
    some { url := url
           title := feed.title.getD ""
           site_link := x
           description := feed.description.getD "" }

/-! ## HTTP fetch (src/lib.rs `fetch_bytes`) -/

/-- Outcome of `client.get(url).send()` followed by reading the body: either
the send fails at the transport level, or a response with some HTTP status
arrives and reading its body yields bytes or fails. -/
inductive FetchOutcome where
  | transportError (msg : String)
  | response (status : Nat) (body : Except String (List Nat))

/-- Error cases `fetch_bytes` can produce (the `reqwest::Error` values built
by its two fallible steps). -/
inductive FetchError where
  | transport (msg : String)
  | bodyRead (msg : String)
deriving DecidableEq

/-- fetch_bytes (src/lib.rs): send the request with `?`, read the body with
`?`, return the bytes. The HTTP status code is never inspected. -/
def fetch_bytes (r : FetchOutcome) : Except FetchError (List Nat) :=
  match r with
  | .transportError m => .error (.transport m)
  | .response _ body =>
    match body with
    | .error m => .error (.bodyRead m)
    | .ok bytes => .ok bytes

/-! ## Favicon discovery (src/html.rs and src/feed.rs `find_favicon`) -/

/-- A `<link>` element of an HTML document, with the attributes read by
`find_link_in_document` (a missing attribute reads as the empty string via
`unwrap_or_default`). -/
structure HtmlLink where
  href : Option String
  rel : Option String
  typeAttr : Option String
deriving DecidableEq

/-- Criteria for finding a link, as used by the callers in src/feed.rs:
match on the `rel` attribute or on the `type` attribute. -/
inductive FindLinkCriteria where
  | Rel (value : String)
  | Typ (value : String)
deriving DecidableEq

/-- Rust str::starts_with for string patterns, on the character lists of the
strings (executable, unlike the opaque String primitives). -/
def strStartsWith (s pre : String) : Bool :=
  List.isPrefixOf pre.toList s.toList

/-- Href resolution branch of find_link_in_document (src/html.rs): a href
not starting with "http" is joined onto the document URL, otherwise it is
parsed on its own. Joining and parsing (the external `url` crate) are
passed in as parameters; either can fail. -/
def resolveHref (join parse : String → Option String) (href : String) : Option String :=
  if !strStartsWith href "http" then join href else parse href

/-- Attribute test of one criterion against one link (src/html.rs): compare
the `rel` or `type` attribute, defaulting to the empty string. -/
def linkMatches (c : FindLinkCriteria) (l : HtmlLink) : Bool :=
  match c with
  | .Rel r => l.rel.getD "" == r
  | .Typ t => l.typeAttr.getD "" == t

/-- Loop body of find_link_in_document for one `<link>` element: when the
href resolves and the criterion matches, return the resolved URL; in every
other case move on to the rest of the document. -/
def findLinkStep (u : Option String) (matched : Bool) (fallback : Option String) : Option String :=
  match u with
  | none => fallback
  | some v => if matched then some v else fallback

/-- find_link_in_document (src/html.rs) for a single criterion: walk the
`<link>` elements in document order; a link whose href fails to resolve is
skipped; return the resolved URL of the first link matching the criterion. -/
def find_link_in_document (join parse : String → Option String) :
    List HtmlLink → FindLinkCriteria → Option String
  | [], _ => none
  | l :: rest, c =>
    findLinkStep (resolveHref join parse (l.href.getD "")) (linkMatches c l)
      (find_link_in_document join parse rest c)

/-- Result of one criterion, or fall through to the remaining criteria. -/
def firstSome (a b : Option String) : Option String :=
  match a with
  | some v => some v
  | none => b

/-- Modelled from the spec: the slice-accepting overload of
find_link_in_document that the callers in src/feed.rs use is not under src/
(src/html.rs only carries the single-criterion version above), so the
combination of several criteria follows the spec's words: "pick the first
`<link>` matching, in priority order". Each criterion is tried in order
through the single-criterion scan of src/html.rs. -/
def findLinkByCriteria (join parse : String → Option String) (links : List HtmlLink) :
    List FindLinkCriteria → Option String
  | [] => none
  | c :: cs =>
    firstSome (find_link_in_document join parse links c)
      (findLinkByCriteria join parse links cs)

/-- find_favicon (src/feed.rs): look for a favicon link in the fetched HTML
document using the fixed criteria list, in priority order. -/
def find_favicon (join parse : String → Option String) (links : List HtmlLink) : Option String :=
  findLinkByCriteria join parse links
    [FindLinkCriteria.Typ "image/x-icon", FindLinkCriteria.Typ "image/icon",
     FindLinkCriteria.Rel "icon"]

/-! ## Run group supervision (src/run_group.rs `RunGroup::start`) -/

/-- Join loop of RunGroup::start (src/run_group.rs): `join_next` yields the
task results in completion order and `result??` propagates the first error.
The first component counts how many task results the loop awaited before
returning; the second is the value `start` returns. -/
def startJoin {e : Type} : List (Except e Unit) → Nat × Except e Unit
  | [] => (0, .ok ())
  | .error err :: _ => (1, .error err)
  | .ok _ :: rest =>
    let r := startJoin rest
    (r.1 + 1, r.2)

/-! ## Helper lemmas -/

theorem leBytes_length (n x : Nat) : (leBytes n x).length = n := by
  induction n generalizing x with
  | zero => rfl
  | succ n ih => simp [leBytes, ih]

theorem leValue_leBytes (n x : Nat) : leValue (leBytes n x) = x % 256 ^ n := by
  induction n generalizing x with
  | zero => simp [leBytes, leValue, Nat.mod_one]
  | succ n ih =>
    rw [leBytes, leValue, ih, pow_succ, mul_comm (256 ^ n) 256, Nat.mod_mul]

theorem leBytes8_inj {x y : Nat} (hx : x < 2 ^ 64) (hy : y < 2 ^ 64)
    (h : leBytes 8 x = leBytes 8 y) : x = y := by
  have hv := congrArg leValue h
  rw [leValue_leBytes, leValue_leBytes] at hv
  have h256 : (256 : Nat) ^ 8 = 2 ^ 64 := by norm_num
  rw [h256, Nat.mod_eq_of_lt hx, Nat.mod_eq_of_lt hy] at hv
  exact hv

theorem i64LeBytes_inj {i j : Int} (hi : i64Range i) (hj : i64Range j)
    (h : i64LeBytes i = i64LeBytes j) : i = j := by
  unfold i64Range at hi hj
  unfold i64LeBytes at h
  have hb1 : (i % (2 : Int) ^ 64).toNat < 2 ^ 64 := by omega
  have hb2 : (j % (2 : Int) ^ 64).toNat < 2 ^ 64 := by omega
  have h2 := leBytes8_inj hb1 hb2 h
  omega

instance (j1 j2 : Job) : Decidable (Job.sameWork j1 j2) := by
  unfold Job.sameWork
  infer_instance

instance (i : Int) : Decidable (i64Range i) := by
  unfold i64Range
  infer_instance

theorem startJoin_all_ok {e : Type} (l : List (Except e Unit))
    (h : ∀ r ∈ l, r = Except.ok ()) : startJoin l = (l.length, Except.ok ()) := by
  induction l with
  | nil => rfl
  | cons r rest ih =>
    have hr := h r (List.mem_cons_self r rest)
    subst hr
    have := ih (fun x hx => h x (List.mem_cons_of_mem _ hx))
    simp [startJoin, this]

theorem find_link_in_document_some {join parse : String → Option String}
    {links : List HtmlLink} {c : FindLinkCriteria} {u : String}
    (h : find_link_in_document join parse links c = some u) :
    ∃ l ∈ links, linkMatches c l = true ∧
      resolveHref join parse (l.href.getD "") = some u := by
  induction links with
  | nil => simp [find_link_in_document] at h
  | cons l rest ih =>
    rw [find_link_in_document] at h
    cases hres : resolveHref join parse (l.href.getD "") with
    | none =>
      rw [hres] at h
      simp only [findLinkStep] at h
      obtain ⟨x, hx, hm, hr⟩ := ih h
      exact ⟨x, List.mem_cons_of_mem _ hx, hm, hr⟩
    | some v =>
      rw [hres] at h
      by_cases hm : linkMatches c l = true
      · simp only [findLinkStep, hm, if_pos] at h
        cases h
        exact ⟨l, List.mem_cons_self l rest, hm, hres⟩
      · simp only [findLinkStep, hm, if_false, Bool.false_eq_true, if_neg] at h
        obtain ⟨x, hx, hm2, hr⟩ := ih h
        exact ⟨x, List.mem_cons_of_mem _ hx, hm2, hr⟩

/-! ## Claim C8: the HTTP fetch operation and HTTP status codes -/

/-- C8 counterexample: `fetch_bytes` on a response with HTTP status 404 whose
body reads fine returns the body bytes as a success, so the claim that a
non-2xx status always yields an error is false. -/
theorem C8_fetch_bytes_counterexample :
    fetch_bytes (FetchOutcome.response 404 (Except.ok [222, 173, 190, 239])) =
      Except.ok [222, 173, 190, 239] := rfl

/-- C8 (amended): fetch_bytes never inspects the HTTP status — its result is
the same for any two statuses — and its error cases distinguish only
network/transport failure and body-read failure; the body of a non-2xx
response is returned as a success. -/
theorem C8_fetch_bytes_status_ignored :
    (∀ s1 s2 : Nat, ∀ body, fetch_bytes (.response s1 body) = fetch_bytes (.response s2 body))
    ∧ (∀ m, fetch_bytes (.transportError m) = .error (.transport m))
    ∧ (∀ (s : Nat) (m : String), fetch_bytes (.response s (.error m)) = .error (.bodyRead m))
    ∧ (∀ (s : Nat) (bytes : List Nat), fetch_bytes (.response s (.ok bytes)) = .ok bytes) := by
  refine ⟨fun s1 s2 body => ?_, fun m => rfl, fun s m => rfl, fun s bytes => rfl⟩
  cases body <;> rfl

/-! ## Claim C7: RunGroup::start and task errors -/

/-- C7 counterexample: with two spawned tasks whose results arrive as
[error, ok], the join loop of `start` awaits only the first result before
returning, not both, so `start` does not wait for all spawned tasks when one
of them returns an error. -/
theorem C7_start_counterexample :
    (startJoin [Except.error 0, Except.ok ()]).1 = 1 ∧
      ([Except.error 0, Except.ok ()] : List (Except Nat Unit)).length = 2 ∧
      (1 : Nat) ≠ 2 := by
  exact ⟨rfl, rfl, by decide⟩

/-- C7 (amended): RunGroup::start surfaces the first error as soon as it is
observed, having awaited only the tasks that finished up to and including
the failing one; it awaits all spawned tasks only when every task
succeeds, in which case it returns success. -/
theorem C7_start_first_error {e : Type} (oks rest : List (Except e Unit)) (err : e)
    (hoks : ∀ r ∈ oks, r = Except.ok ()) :
    startJoin (oks ++ Except.error err :: rest) = (oks.length + 1, Except.error err)
    ∧ (∀ l : List (Except e Unit), (∀ r ∈ l, r = Except.ok ()) →
        startJoin l = (l.length, Except.ok ())) := by
  refine ⟨?_, fun l hl => startJoin_all_ok l hl⟩
  induction oks with
  | nil => rfl
  | cons r tl ih =>
    have hr := hoks r (List.mem_cons_self r tl)
    subst hr
    have := ih (fun x hx => hoks x (List.mem_cons_of_mem _ hx))
    simp [startJoin, this]
    try omega

/-- C7 witness: a concrete run with results [ok, error 7, ok] awaits two
results and surfaces the error. -/
theorem C7_start_first_error_witness :
    startJoin [Except.ok (), Except.error 7, Except.ok ()] = (2, Except.error 7) := by
  have h := C7_start_first_error (e := Nat) [Except.ok ()] [Except.ok ()] 7
    (by intro r hr; simp at hr; simp [hr])
  simpa using h.1

/-! ## Claim C4: site link extraction in ParsedFeed::from_raw_feed -/

/-- Concrete raw feed every link of which carries a `rel` attribute. -/
def allRelFeed : RawFeedModel :=
  { title := some "Foo", description := some "Foo",
    links := [{ href := "https://example.com/blog/index.xml", rel := some "self" }] }

/-- C4 counterexample: on a feed whose every link has a `rel` attribute,
from_raw_feed does not return a parsed feed with empty site link — the
`Vec::remove(0)` call panics on the empty filtered list (modelled as
`none`), so the extraction fails instead of producing the empty string. -/
theorem C4_from_raw_feed_counterexample :
    from_raw_feed "https://example.com/blog/" allRelFeed = none := rfl

/-- C4 (amended): from_raw_feed discards every link carrying a `rel`
attribute and takes the href of the first remaining link, regardless of how
many `rel`-bearing links precede it; but when every link has a `rel`, the
extraction panics (`Vec::remove(0)` on an empty vector) instead of
returning the empty string. -/
theorem C4_site_link_extraction (url : String) (feed : RawFeedModel)
    (pre post : List RawLink) (l : RawLink)
    (hsplit : feed.links = pre ++ l :: post)
    (hpre : ∀ p ∈ pre, p.rel.isSome) (hl : l.rel = none) :
    from_raw_feed url feed =
      some { url := url, title := feed.title.getD "", site_link := l.href,
             description := feed.description.getD "" }
    ∧ (∀ g : RawFeedModel, (∀ p ∈ g.links, p.rel.isSome) → from_raw_feed url g = none) := by
  constructor
  · unfold from_raw_feed
    rw [hsplit, List.filter_append]
    have hpre2 : (pre.filter fun x => x.rel.isNone) = [] := by
      rw [List.filter_eq_nil_iff]
      intro p hp
      simp [Option.isNone_iff_eq_none]
      exact Option.isSome_iff_ne_none.mp (hpre p hp)
    have hl2 : ((l :: post).filter fun x => x.rel.isNone) =
        l :: (post.filter fun x => x.rel.isNone) := by
      rw [List.filter_cons_of_pos]
      simp [hl]
    rw [hpre2, hl2]
    rfl
  · intro g hg
    unfold from_raw_feed
    have : (g.links.filter fun x => x.rel.isNone) = [] := by
      rw [List.filter_eq_nil_iff]
      intro p hp
      simp [Option.isNone_iff_eq_none]
      exact Option.isSome_iff_ne_none.mp (hg p hp)
    rw [this]
    rfl

/-- C4 witness: a concrete feed whose self link precedes the bare site link;
the site link is extracted and the rel-bearing link is ignored. -/
theorem C4_site_link_extraction_witness :
    from_raw_feed "https://example.com/blog/"
      { title := some "Foo", description := some "Foo",
        links := [{ href := "https://example.com/blog/index.xml", rel := some "self" },
                  { href := "https://example.com/blog/", rel := none }] } =
      some { url := "https://example.com/blog/", title := "Foo",
             site_link := "https://example.com/blog/", description := "Foo" } := by
  have h := C4_site_link_extraction "https://example.com/blog/"
    { title := some "Foo", description := some "Foo",
      links := [{ href := "https://example.com/blog/index.xml", rel := some "self" },
                { href := "https://example.com/blog/", rel := none }] }
    [{ href := "https://example.com/blog/index.xml", rel := some "self" }] []
    { href := "https://example.com/blog/", rel := none }
    rfl (by decide) rfl
  exact h.1

/-! ## Claim C5: insert_feed_entry on an existing (feed_id, external_id) -/

/-- Concrete database already holding entry e1 in feed 1 of user 7. -/
def dupDb : FeedsDb :=
  { users := [7],
    feeds := [{ id := 1, user_id := 7, url := "https://example.com/feed" }],
    entries := [{ feed_id := 1, external_id := "e1", title := "t", url := none,
                  authors := [], summary := "s" }] }

/-- Concrete parsed entry with the already-present external id e1. -/
def dupEntry : ParsedFeedEntry :=
  { external_id := "e1", url := none, title := "t2", summary := "s2", authors := [] }

/-- C5 counterexample: inserting an entry whose `(feed_id, external_id)`
already exists makes insert_feed_entry fail with a uniqueness-violation
error — it is not a silent no-op returning success. -/
theorem C5_insert_entry_counterexample :
    insert_feed_entry dupDb 1 dupEntry = Except.error () := rfl

/-- C5 (amended): insert_feed_entry is a bare INSERT: when a row with the
same `(feed_id, external_id)` exists it returns a uniqueness-violation
error, and otherwise it appends exactly the new row and returns unit (not a
flag saying whether a row was inserted); duplicate suppression lives in its
caller, not in insert_feed_entry. -/
theorem C5_insert_entry_plain_insert (db : FeedsDb) (feed_id : Int)
    (entry : ParsedFeedEntry) :
    ((∃ e ∈ db.entries, e.feed_id = feed_id ∧ e.external_id = entry.external_id) →
      insert_feed_entry db feed_id entry = Except.error ())
    ∧ ((∀ e ∈ db.entries, ¬(e.feed_id = feed_id ∧ e.external_id = entry.external_id)) →
      insert_feed_entry db feed_id entry =
        Except.ok { db with entries := db.entries ++
          [⟨feed_id, entry.external_id, entry.title, entry.url,
            entry.authors, entry.summary⟩] }) := by
  constructor
  · rintro ⟨e, he, h1, h2⟩
    unfold insert_feed_entry
    rw [if_pos]
    rw [List.any_eq_true]
    exact ⟨e, he, by simp [h1, h2]⟩
  · intro hnone
    unfold insert_feed_entry
    rw [if_neg]
    rw [List.any_eq_true]
    rintro ⟨e, he, hee⟩
    simp at hee
    exact hnone e he hee

/-- C5 witness: on a fresh external id the insert appends the row. -/
theorem C5_insert_entry_plain_insert_witness :
    insert_feed_entry dupDb 1
      { external_id := "e2", url := none, title := "t3", summary := "s3", authors := [] } =
      Except.ok { dupDb with entries := dupDb.entries ++
        [{ feed_id := 1, external_id := "e2", title := "t3", url := none,
           authors := [], summary := "s3" }] } := by
  have h := C5_insert_entry_plain_insert dupDb 1
    { external_id := "e2", url := none, title := "t3", summary := "s3", authors := [] }
  exact h.2 (by decide)

/-! ## Claim C10: user-wide duplicate check during RefreshFeed -/

/-- C10: during a RefreshFeed job the duplicate check is user-wide: a parsed
entry is skipped (the database is left untouched for it) whenever any feed
owned by the job's user already contains an entry with the same external
id, even a different feed than the one being refreshed. -/
theorem C10_user_wide_dedup (db : FeedsDb) (uid : Nat) (fid : Int)
    (f : FeedRow) (er : FeedEntryRow) (e : ParsedFeedEntry)
    (rest : List ParsedFeedEntry)
    (hu : uid ∈ db.users) (hf : f ∈ db.feeds) (hfu : f.user_id = uid)
    (her : er ∈ db.entries) (herf : er.feed_id = f.id)
    (hext : er.external_id = e.external_id) :
    feed_entry_with_external_id_exists db uid e.external_id = true
    ∧ processEntries uid fid db (e :: rest) = processEntries uid fid db rest := by
  have hex : feed_entry_with_external_id_exists db uid e.external_id = true := by
    unfold feed_entry_with_external_id_exists
    rw [List.any_eq_true]
    refine ⟨er, her, ?_⟩
    rw [Bool.and_eq_true, List.any_eq_true]
    refine ⟨⟨f, hf, ?_⟩, by simp [hext]⟩
    rw [Bool.and_eq_true, List.any_eq_true]
    exact ⟨by simp [herf], uid, hu, by simp [hfu]⟩
  refine ⟨hex, ?_⟩
  rw [processEntries, if_pos hex]

/-- C10 witness: user 7 owns feeds 1 and 2; external id e1 already exists in
feed 1; refreshing feed 2 with an entry carrying external id e1 leaves the
database unchanged. -/
theorem C10_user_wide_dedup_witness :
    processEntries 7 2
      { users := [7],
        feeds := [{ id := 1, user_id := 7, url := "https://example.com/feed" },
                  { id := 2, user_id := 7, url := "https://example.com/feed2" }],
        entries := [{ feed_id := 1, external_id := "e1", title := "t", url := none,
                      authors := [], summary := "s" }] }
      [{ external_id := "e1", url := none, title := "t9", summary := "s9", authors := [] }] =
      Except.ok
        { users := [7],
          feeds := [{ id := 1, user_id := 7, url := "https://example.com/feed" },
                    { id := 2, user_id := 7, url := "https://example.com/feed2" }],
          entries := [{ feed_id := 1, external_id := "e1", title := "t", url := none,
                        authors := [], summary := "s" }] } := by
  have h := C10_user_wide_dedup
    { users := [7],
      feeds := [{ id := 1, user_id := 7, url := "https://example.com/feed" },
                { id := 2, user_id := 7, url := "https://example.com/feed2" }],
      entries := [{ feed_id := 1, external_id := "e1", title := "t", url := none,
                    authors := [], summary := "s" }] }
    7 2
    { id := 1, user_id := 7, url := "https://example.com/feed" }
    { feed_id := 1, external_id := "e1", title := "t", url := none,
      authors := [], summary := "s" }
    { external_id := "e1", url := none, title := "t9", summary := "s9", authors := [] }
    []
    (by decide) (by simp) rfl (by simp) rfl rfl
  rw [h.2]
  rfl

/-! ## Claim C9: favicon link selection priority -/

/-- C9: find_favicon picks the favicon link by criteria priority order — a
link with type image/x-icon beats any link with type image/icon, which
beats any link with rel icon, regardless of document order between
criteria — every returned URL is the resolution (against the source URL)
of the href of a link matching one of the three criteria, and the result is
`none` when no link matches any criterion. -/
theorem C9_find_favicon_priority (join parse : String → Option String)
    (links : List HtmlLink) :
    (∀ u, find_link_in_document join parse links (.Typ "image/x-icon") = some u →
      find_favicon join parse links = some u)
    ∧ (∀ u, find_link_in_document join parse links (.Typ "image/x-icon") = none →
      find_link_in_document join parse links (.Typ "image/icon") = some u →
      find_favicon join parse links = some u)
    ∧ (∀ u, find_link_in_document join parse links (.Typ "image/x-icon") = none →
      find_link_in_document join parse links (.Typ "image/icon") = none →
      find_link_in_document join parse links (.Rel "icon") = some u →
      find_favicon join parse links = some u)
    ∧ (find_link_in_document join parse links (.Typ "image/x-icon") = none →
      find_link_in_document join parse links (.Typ "image/icon") = none →
      find_link_in_document join parse links (.Rel "icon") = none →
      find_favicon join parse links = none)
    ∧ (∀ u, find_favicon join parse links = some u →
      ∃ l ∈ links, resolveHref join parse (l.href.getD "") = some u ∧
        (linkMatches (.Typ "image/x-icon") l = true ∨
         linkMatches (.Typ "image/icon") l = true ∨
         linkMatches (.Rel "icon") l = true)) := by
  refine ⟨?_, ?_, ?_, ?_, ?_⟩
  · intro u hx
    simp [find_favicon, findLinkByCriteria, hx, firstSome]
  · intro u hx hi
    simp [find_favicon, findLinkByCriteria, hx, hi, firstSome]
  · intro u hx hi hr
    simp [find_favicon, findLinkByCriteria, hx, hi, hr, firstSome]
  · intro hx hi hr
    simp [find_favicon, findLinkByCriteria, hx, hi, hr, firstSome]
  · intro u hf
    cases hx : find_link_in_document join parse links (.Typ "image/x-icon") with
    | some v =>
      have : some v = some u := by
        rw [← hf]
        simp [find_favicon, findLinkByCriteria, hx, firstSome]
      cases this
      obtain ⟨l, hl, hm, hres⟩ := find_link_in_document_some hx
      exact ⟨l, hl, hres, Or.inl hm⟩
    | none =>
      cases hi : find_link_in_document join parse links (.Typ "image/icon") with
      | some v =>
        have : some v = some u := by
          rw [← hf]
          simp [find_favicon, findLinkByCriteria, hx, hi, firstSome]
        cases this
        obtain ⟨l, hl, hm, hres⟩ := find_link_in_document_some hi
        exact ⟨l, hl, hres, Or.inr (Or.inl hm)⟩
      | none =>
        cases hr : find_link_in_document join parse links (.Rel "icon") with
        | some v =>
          have : some v = some u := by
            rw [← hf]
            simp [find_favicon, findLinkByCriteria, hx, hi, hr, firstSome]
          cases this
          obtain ⟨l, hl, hm, hres⟩ := find_link_in_document_some hr
          exact ⟨l, hl, hres, Or.inr (Or.inr hm)⟩
        | none =>
          exfalso
          rw [show find_favicon join parse links = none by
            simp [find_favicon, findLinkByCriteria, hx, hi, hr, firstSome]] at hf
          cases hf

/-- C9 witness: a rel icon link appearing before a type image/x-icon link in
the document does not win — the x-icon link is selected, its relative href
joined onto the source URL. -/
theorem C9_find_favicon_priority_witness :
    find_favicon (fun s => some ("https://example.com" ++ s)) (fun s => some s)
      [{ href := some "/generic", rel := some "icon", typeAttr := none },
       { href := some "/xicon.ico", rel := none, typeAttr := some "image/x-icon" }] =
      some "https://example.com/xicon.ico" := by
  have h := C9_find_favicon_priority (fun s => some ("https://example.com" ++ s))
    (fun s => some s)
    [{ href := some "/generic", rel := some "icon", typeAttr := none },
     { href := some "/xicon.ico", rel := none, typeAttr := some "image/x-icon" }]
  exact h.1 "https://example.com/xicon.ico" (by decide)

/-! ## Claim C1: idempotent enqueue by fingerprint -/

/-- Concrete FetchFavicon job used as witness input. -/
def jobF1 : Job :=
  .FetchFavicon { user_id := ⟨1⟩, feed_id := 42, site_link := "https://a.example/" }

/-- Concrete RefreshFeed job used as witness input. -/
def jobR1 : Job :=
  .RefreshFeed { user_id := ⟨2⟩, feed_id := 42, feed_url := "https://b.example/feed" }

/-- C1: enqueue is idempotent by fingerprint — starting from a table holding
no row with the fingerprint of payload P (and no row with the first fresh
id), two successive post_job calls with P leave exactly one row carrying
the fingerprint of P, and posting a job whose fingerprint already exists is
a silent no-op that returns the fresh job id successfully and changes no
row. -/
theorem C1_enqueue_idempotent (t : JobsTable) (P : Job) (id1 id2 : Nat)
    (hkey : ∀ r ∈ t.rows, r.key ≠ P.key)
    (hid1 : ∀ r ∈ t.rows, r.id ≠ id1) :
    fingerprintCount (post_job (post_job t id1 P).1 id2 P).1 P.key = 1
    ∧ (∀ (u : JobsTable) (idf : Nat), (∃ r ∈ u.rows, r.key = P.key) →
        post_job u idf P = (u, idf)) := by
  have hany : (t.rows.any fun r => r.key == P.key || r.id == id1) = false := by
    rw [List.any_eq_false]
    intro r hr
    simp [hkey r hr, hid1 r hr]
  have h1 : post_job t id1 P = ({ rows := t.rows ++ [⟨id1, P.key, P⟩] }, id1) := by
    rw [post_job, hany]
    rfl
  have hnoop : ∀ (u : JobsTable) (idf : Nat), (∃ r ∈ u.rows, r.key = P.key) →
      post_job u idf P = (u, idf) := by
    rintro u idf ⟨r, hr, hrk⟩
    rw [post_job, if_pos]
    rw [List.any_eq_true]
    exact ⟨r, hr, by simp [hrk]⟩
  refine ⟨?_, hnoop⟩
  rw [h1]
  rw [hnoop { rows := t.rows ++ [⟨id1, P.key, P⟩] } id2
    ⟨⟨id1, P.key, P⟩, by simp, rfl⟩]
  unfold fingerprintCount
  rw [List.filter_append]
  have hnil : t.rows.filter (fun r => r.key == P.key) = [] := by
    rw [List.filter_eq_nil_iff]
    intro r hr
    simp [hkey r hr]
  rw [hnil]
  simp

/-- C1 witness: two posts of the same concrete payload into an empty table
leave exactly one row with its fingerprint. -/
theorem C1_enqueue_idempotent_witness :
    fingerprintCount (post_job (post_job ⟨[]⟩ 1 jobF1).1 2 jobF1).1 jobF1.key = 1 := by
  have h := C1_enqueue_idempotent ⟨[]⟩ jobF1 1 2 (by simp) (by simp)
  exact h.1

/-! ## Claim C6: a payload that fails to decode -/

/-- Concrete jobs table holding one pending row whose payload fails to
decode. -/
def poisonDb : RunnerDb := ⟨[⟨1, none, JobStatus.pending, 0⟩]⟩

/-- C6 counterexample: claiming a pending row with an undecodable payload
and zero attempts makes run_jobs fail as a whole and leaves the table
unchanged — the attempts counter stays at zero and the row stays pending
instead of being incremented for a later retry and eventual failure. -/
theorem C6_decode_error_counterexample :
    run_jobs (fun _ => true) poisonDb = .error ()
    ∧ runnerTick (fun _ => true) poisonDb = (poisonDb, []) := ⟨rfl, rfl⟩

/-- C6 (amended): a claimed row whose payload cannot be decoded is fatal to
the whole Run phase, not just to one handler invocation — the decode error
propagates out of run_jobs, the claim transaction rolls back, so the
attempts counter is never incremented, the row is never marked failed, no
other processing of the batch survives, and every later tick repeats
the same aborted claim forever. -/
theorem C6_decode_error_aborts_tick (h : Job → Bool) (db : RunnerDb)
    (record : RunnerRow)
    (hclaim : claimPending db = [record]) (hdata : record.data = none)
    (hatt : record.attempts < MAX_JOBS_ATTEMPTS) :
    run_jobs h db = .error ()
    ∧ runnerTick h db = (db, [])
    ∧ (∀ n, runnerTicks h n db = (db, [])) := by
  have hrun : run_jobs h db = .error () := by
    rw [run_jobs, hclaim, processClaimed]
    rw [if_neg (not_le.mpr hatt)]
    rw [hdata]
  have htick : runnerTick h db = (db, []) := by
    rw [runnerTick, hrun]
  refine ⟨hrun, htick, ?_⟩
  intro n
  induction n with
  | zero => rfl
  | succ n ih => simp [runnerTicks, htick, ih]

/-- C6 witness: the amended behaviour on the concrete poisoned table — the
error propagates and ten ticks later nothing has changed. -/
theorem C6_decode_error_aborts_tick_witness :
    runnerTicks (fun _ => true) 10 poisonDb = (poisonDb, []) := by
  have h := C6_decode_error_aborts_tick (fun _ => true) poisonDb
    ⟨1, none, JobStatus.pending, 0⟩ rfl rfl (by decide)
  exact h.2.2 10

/-! ## Claim C3: per-row Run phase behaviour and the retry bound -/

theorem run_jobs_single (h : Job → Bool) (id : Nat) (d : Option Job) (a : Nat) :
    run_jobs h ⟨[⟨id, d, JobStatus.pending, a⟩]⟩ =
      if a ≥ MAX_JOBS_ATTEMPTS then
        Except.ok (⟨[⟨id, d, JobStatus.failed, a⟩]⟩, [])
      else
        match d with
        | none => Except.error ()
        | some job =>
          if h job then Except.ok (⟨[]⟩, [job])
          else Except.ok (⟨[⟨id, d, JobStatus.pending, a + 1⟩]⟩, [job]) := by
  have hcp : claimPending ⟨[⟨id, d, JobStatus.pending, a⟩]⟩ =
      [⟨id, d, JobStatus.pending, a⟩] := rfl
  rw [run_jobs, hcp, processClaimed]
  by_cases ha : a ≥ MAX_JOBS_ATTEMPTS
  · rw [if_pos ha, if_pos ha, processClaimed]
    simp [markFailed]
  · rw [if_neg ha, if_neg ha]
    cases d with
    | none => rfl
    | some job =>
      by_cases hj : h job
      · simp [hj, processClaimed, deleteJob]
      · simp [hj, processClaimed, incrementAttempts]

theorem runnerTick_increment (id : Nat) (j : Job) (a : Nat) (ha : a < 5) :
    runnerTick (fun _ => false) ⟨[⟨id, some j, JobStatus.pending, a⟩]⟩ =
      (⟨[⟨id, some j, JobStatus.pending, a + 1⟩]⟩, [j]) := by
  rw [runnerTick, run_jobs_single,
    if_neg (show ¬ a ≥ MAX_JOBS_ATTEMPTS from not_le.mpr ha)]
  rfl

theorem runnerTicks_fail_pending (id : Nat) (j : Job) :
    ∀ (k a : Nat), a + k = 5 →
      runnerTicks (fun _ => false) k ⟨[⟨id, some j, JobStatus.pending, a⟩]⟩ =
        (⟨[⟨id, some j, JobStatus.pending, 5⟩]⟩, List.replicate k j) := by
  intro k
  induction k with
  | zero =>
    intro a ha
    have : a = 5 := by omega
    subst this
    rfl
  | succ k ih =>
    intro a ha
    rw [runnerTicks]
    rw [runnerTick_increment id j a (by omega)]
    rw [ih (a + 1) (by omega)]
    simp [List.replicate_succ]

theorem runnerTicks_fail_failed (id : Nat) (j : Job) :
    ∀ (k a : Nat), a + k = 5 →
      runnerTicks (fun _ => false) (k + 1) ⟨[⟨id, some j, JobStatus.pending, a⟩]⟩ =
        (⟨[⟨id, some j, JobStatus.failed, 5⟩]⟩, List.replicate k j) := by
  intro k
  induction k with
  | zero =>
    intro a ha
    have : a = 5 := by omega
    subst this
    rw [runnerTicks]
    have htick : runnerTick (fun _ => false) ⟨[⟨id, some j, JobStatus.pending, 5⟩]⟩ =
        (⟨[⟨id, some j, JobStatus.failed, 5⟩]⟩, []) := by
      rw [runnerTick, run_jobs_single]
      rfl
    rw [htick, runnerTicks]
    rfl
  | succ k ih =>
    intro a ha
    rw [runnerTicks]
    rw [runnerTick_increment id j a (by omega)]
    rw [ih (a + 1) (by omega)]
    simp [List.replicate_succ]

/-- C3: for a job row claimed in a Run phase, when its attempts counter has
reached MAX_ATTEMPTS (= 5) the row is marked failed and the handler is not
dispatched; below the budget the handler runs, a handler error increments
the attempts counter by exactly one, and a handler success deletes the row;
consequently a deterministically failing job is dispatched on five
consecutive ticks, its attempts rising to 5, and the sixth tick marks it
failed without dispatching it again. -/
theorem C3_run_phase (id : Nat) (j : Job) (a : Nat) (h : Job → Bool) :
    (a ≥ MAX_JOBS_ATTEMPTS →
      run_jobs h ⟨[⟨id, some j, JobStatus.pending, a⟩]⟩ =
        .ok (⟨[⟨id, some j, JobStatus.failed, a⟩]⟩, []))
    ∧ (a < MAX_JOBS_ATTEMPTS → h j = false →
      run_jobs h ⟨[⟨id, some j, JobStatus.pending, a⟩]⟩ =
        .ok (⟨[⟨id, some j, JobStatus.pending, a + 1⟩]⟩, [j]))
    ∧ (a < MAX_JOBS_ATTEMPTS → h j = true →
      run_jobs h ⟨[⟨id, some j, JobStatus.pending, a⟩]⟩ = .ok (⟨[]⟩, [j]))
    ∧ runnerTicks (fun _ => false) 5 ⟨[⟨id, some j, JobStatus.pending, 0⟩]⟩ =
        (⟨[⟨id, some j, JobStatus.pending, 5⟩]⟩, [j, j, j, j, j])
    ∧ runnerTicks (fun _ => false) 6 ⟨[⟨id, some j, JobStatus.pending, 0⟩]⟩ =
        (⟨[⟨id, some j, JobStatus.failed, 5⟩]⟩, [j, j, j, j, j]) := by
  refine ⟨?_, ?_, ?_, ?_, ?_⟩
  · intro hge
    rw [run_jobs_single, if_pos hge]
  · intro hlt hjf
    rw [run_jobs_single, if_neg (show ¬ a ≥ MAX_JOBS_ATTEMPTS from not_le.mpr hlt)]
    simp [hjf]
  · intro hlt hjt
    rw [run_jobs_single, if_neg (show ¬ a ≥ MAX_JOBS_ATTEMPTS from not_le.mpr hlt)]
    simp [hjt]
  · exact runnerTicks_fail_pending id j 5 0 rfl
  · exact runnerTicks_fail_failed id j 5 0 rfl

/-- C3 witness: the concrete FetchFavicon payload at the attempts budget is
marked failed without being dispatched. -/
theorem C3_run_phase_witness :
    run_jobs (fun _ => false) ⟨[⟨1, some jobF1, JobStatus.pending, 7⟩]⟩ =
      .ok (⟨[⟨1, some jobF1, JobStatus.failed, 7⟩]⟩, []) := by
  have h := C3_run_phase 1 jobF1 7 (fun _ => false)
  exact h.1 (by decide)

/-! ## Claim C2: the fingerprint as a pure function of tag and feed id -/

theorem keyInput_inj {j1 j2 : Job} (h1 : i64Range j1.feedId) (h2 : i64Range j2.feedId)
    (h : j1.keyInput = j2.keyInput) : Job.sameWork j1 j2 := by
  cases j1 with
  | FetchFavicon d1 =>
    cases j2 with
    | FetchFavicon d2 =>
      simp only [Job.keyInput, Job.tag, Job.feedId] at h
      have hfid := i64LeBytes_inj h1 h2 (List.append_cancel_left h)
      exact ⟨rfl, hfid⟩
    | RefreshFeed d2 =>
      exfalso
      have hlen := congrArg List.length h
      simp only [Job.keyInput, Job.tag, Job.feedId, List.length_append,
        i64LeBytes, leBytes_length] at hlen
      rw [show (strBytes "fetch_favicon").length = 13 from rfl,
        show (strBytes "refresh_feed").length = 12 from rfl] at hlen
      omega
  | RefreshFeed d1 =>
    cases j2 with
    | FetchFavicon d2 =>
      exfalso
      have hlen := congrArg List.length h
      simp only [Job.keyInput, Job.tag, Job.feedId, List.length_append,
        i64LeBytes, leBytes_length] at hlen
      rw [show (strBytes "refresh_feed").length = 12 from rfl,
        show (strBytes "fetch_favicon").length = 13 from rfl] at hlen
      omega
    | RefreshFeed d2 =>
      simp only [Job.keyInput, Job.tag, Job.feedId] at h
      have hfid := i64LeBytes_inj h1 h2 (List.append_cancel_left h)
      exact ⟨rfl, hfid⟩

/-- C2: Job::key is the 64-byte BLAKE2b-512 digest of the ASCII tag of the
job type followed by the little-endian 8-byte encoding of the feed id, so
it is a pure function of tag and feed id — user id and URL fields never
enter it — and, for any two payloads on which BLAKE2b does not collide
(hypothesis hcoll, satisfied by every concrete pair checked), the
fingerprints are equal precisely when tag and feed id agree. -/
theorem C2_fingerprint (j1 j2 : Job)
    (h1 : i64Range j1.feedId) (h2 : i64Range j2.feedId)
    (hcoll : j1.key = j2.key → j1.keyInput = j2.keyInput) :
    j1.key = blake2b512 (strBytes j1.tag ++ i64LeBytes j1.feedId)
    ∧ j1.keyInput = strBytes j1.tag ++ i64LeBytes j1.feedId
    ∧ (j1.key = j2.key ↔ Job.sameWork j1 j2) := by
  refine ⟨?_, rfl, ?_, ?_⟩
  · cases j1 <;> rfl
  · intro hk
    exact keyInput_inj h1 h2 (hcoll hk)
  · rintro ⟨htag, hfid⟩
    cases j1 with
    | FetchFavicon d1 =>
      cases j2 with
      | FetchFavicon d2 =>
        simp only [Job.feedId] at hfid
        simp only [Job.key, hfid]
      | RefreshFeed d2 =>
        simp only [Job.tag] at htag
        exact absurd htag (by decide)
    | RefreshFeed d1 =>
      cases j2 with
      | FetchFavicon d2 =>
        simp only [Job.tag] at htag
        exact absurd htag (by decide)
      | RefreshFeed d2 =>
        simp only [Job.feedId] at hfid
        simp only [Job.key, hfid]

/-- C2 witness: concrete payloads of the two job types sharing a feed id
have distinct fingerprints (distinct tags), with all hypotheses — the i64
ranges and collision-freeness of the concrete pair — checked by
computation. -/
theorem C2_fingerprint_witness : jobF1.key ≠ jobR1.key := by
  have h := C2_fingerprint jobF1 jobR1 (by decide) (by decide)
    (fun hk => absurd hk (by decide))
  exact fun hk => (by decide : ¬ Job.sameWork jobF1 jobR1) (h.2.2.mp hk)

end Servare
